import Mathlib

/-!
Shallow embedding of the altcoin-trading data-collection orchestrator.

The definitions below translate, function by function, the parts of
`src/classes/interface_classes.py` and `src/main.py` that the verified
properties are about: the `DataStore` record log with duplicate-id
suppression, the per-exchange kline-interval and error-code tables, the
symbol filters, the historical-klines error handler and the polling
collection loop.  Python dictionaries keyed by insertion order are
modelled as association lists, csv rows as lists of values, and raising
code as `Except`.
-/

namespace Altcoin

/-- Equality of `Except` results is decidable whenever both component
types have decidable equality (needed to evaluate the embedded
raising functions on concrete inputs). -/
instance {ε α : Type} [DecidableEq ε] [DecidableEq α] : DecidableEq (Except ε α) := fun a b =>
  match a, b with
  | .error x, .error y =>
      if h : x = y then .isTrue (by rw [h]) else .isFalse (by simp [h])
  | .ok x, .ok y =>
      if h : x = y then .isTrue (by rw [h]) else .isFalse (by simp [h])
  | .error _, .ok _ => .isFalse (by simp)
  | .ok _, .error _ => .isFalse (by simp)

/-- `DELAY_AFTER_TIMEOUT` from `main.py`: seconds slept after a
rate-limit or timeout error before retrying. -/
def DELAY_AFTER_TIMEOUT : Nat := 20

/-- A value stored in a record row: exchange payloads mix strings and
numbers (ids, timestamps, prices). -/
inductive Value where
  | str (s : String)
  | int (n : Int)
deriving DecidableEq, Repr

/-- `s.replace(c, "")` for a single-character pattern `c`: removes every
occurrence of the character. -/
def removeChar (c : Char) (s : String) : String :=
  ⟨s.data.filter (fun a => a != c)⟩

/-- `DataStore._clean_data`, per entry: string entries go through
`.replace("\n", "")`, `.replace(" ", "")`, `.replace(",", "")` in that
order; non-string entries are untouched. -/
def clean_value : Value → Value
  | .str s => .str (removeChar ',' (removeChar ' ' (removeChar '\n' s)))
  | .int n => .int n

/-- `DataStore._clean_data`: the in-place loop over indices rewrites each
entry independently, i.e. maps `clean_value` over the row. -/
def clean_data (data : List Value) : List Value :=
  data.map clean_value

/-- State of one `DataStore`: `timestamps` is the insertion-ordered key
list of the Python dict `self.timestamps` (all values are `True`), `log`
is the sequence of rows appended to the backing csv file, and
`id_buffer_size` is the constructor argument of the same name. -/
structure DataStore where
  id_buffer_size : Nat
  timestamps : List Value
  log : List (List Value)
deriving DecidableEq, Repr

/-- A freshly constructed store: empty dict, empty csv. -/
def empty_store (id_buffer_size : Nat) : DataStore :=
  { id_buffer_size := id_buffer_size, timestamps := [], log := [] }

/-- Python `d[k] = True` on an insertion-ordered dict: a present key
keeps its position, an absent key is appended. -/
def insert_key (k : Value) (l : List Value) : List Value :=
  if k ∈ l then l else l ++ [k]

/-- `DataStore.write_data_to_csv`: clean the row, return silently if
`data[id_index]` is already a key of `self.timestamps`, otherwise set
`self.timestamps[data[0]] = True` and append the cleaned row to the csv.
`id_buffer_size` is not consulted on this path. -/
def write_data_to_csv (store : DataStore) (data : List Value) (id_index : Nat) : DataStore :=
  let d := clean_data data
  if d.getD id_index (.str "") ∈ store.timestamps then
    store
  else
    { store with
      timestamps := insert_key (d.getD 0 (.str "")) store.timestamps,
      log := store.log ++ [d] }

/-- `DataStore._create_csv`, as its effect on the backing file's
contents (`none` = file absent): `open(self.csv_name, "w")` followed by
`close()` creates the file when absent and truncates it to empty when
present.  `DataStore.__init__` calls this unconditionally (the
`_empty_csv` call is commented out). -/
def create_csv (_file : Option String) : Option String :=
  some ""

/-- Feeding a sequence of records to one store through
`write_data_to_csv` with `id_index=0`, the index used by every call site
in the repository. -/
def feed (store : DataStore) (recs : List (List Value)) : DataStore :=
  recs.foldl (fun s r => write_data_to_csv s r 0) store

/-- The id of a stored row: its entry at index 0. -/
def row_id (row : List Value) : Value :=
  row.getD 0 (.str "")

/-! ## Interval and error-code tables (`main.py`) -/

/-- The binance dict literal in `KlineIntervals._set_intervals`. -/
def binance_intervals : List (String × Nat) :=
  [("1m", 60), ("3m", 180), ("5m", 300), ("15m", 900), ("30m", 1800),
   ("1h", 3600), ("2h", 7200), ("1d", 86400), ("1w", 604800), ("1M", 2592000)]

/-- The kucoin dict literal in `KlineIntervals._set_intervals`. -/
def kucoin_intervals : List (String × Nat) :=
  [("1min", 60), ("3min", 180), ("5min", 300), ("15min", 900), ("30min", 1800),
   ("1hour", 3600), ("2hour", 7200), ("1d", 86400), ("1week", 604800), ("1mon", 2592000)]

/-- The huobi dict literal in `KlineIntervals._set_intervals`. -/
def huobi_intervals : List (String × Nat) :=
  [("1min", 60), ("5min", 300), ("15min", 900), ("30min", 1800),
   ("60min", 3600), ("1day", 86400), ("1week", 604800), ("1mon", 2592000)]

/-- `KlineIntervals._set_intervals`, called by `KlineIntervals.__init__`:
picks the exchange's table or raises `Exception("Exchange not supported")`. -/
def set_intervals (exchange : String) : Except String (List (String × Nat)) :=
  if exchange = "binance" then .ok binance_intervals
  else if exchange = "kucoin" then .ok kucoin_intervals
  else if exchange = "huobi" then .ok huobi_intervals
  else .error "Exchange not supported"

/-- `KlineIntervals.get_interval_seconds`: dict access
`self.intervals[interval]` (`none` models the `KeyError` case). -/
def get_interval_seconds (intervals : List (String × Nat)) (interval : String) : Option Nat :=
  intervals.lookup interval

/-- `HistoricalKlines._get_exchange_interval`: constructs
`KlineIntervals(self.exchange)`, scans `intervals.items()` in order for
the first token whose seconds equal `interval_seconds`, and raises
`Exception("Interval not supported")` when none matches. -/
def get_exchange_interval (exchange : String) (interval_seconds : Nat) : Except String String :=
  match set_intervals exchange with
  | .error e => .error e
  | .ok intervals =>
      match intervals.find? (fun p => p.2 == interval_seconds) with
      | some p => .ok p.1
      | none => .error "Interval not supported"

/-- The binance dict literal in `ErrorCodes._set_error_codes`. -/
def binance_error_codes : List (String × Int) :=
  [("TOO_MANY_REQUESTS", -1003), ("TIMEOUT", -1001)]

/-- The kucoin dict literal in `ErrorCodes._set_error_codes`. -/
def kucoin_error_codes : List (String × Int) :=
  [("TOO_MANY_REQUESTS", 429), ("TIMEOUT", 504)]

/-- The huobi dict literal in `ErrorCodes._set_error_codes`. -/
def huobi_error_codes : List (String × Int) :=
  [("TOO_MANY_REQUESTS", 429), ("TIMEOUT", 504)]

/-- `ErrorCodes._set_error_codes`, called by `ErrorCodes.__init__`:
picks the exchange's table or raises `Exception("Exchange not supported")`. -/
def set_error_codes (exchange : String) : Except String (List (String × Int)) :=
  if exchange = "binance" then .ok binance_error_codes
  else if exchange = "kucoin" then .ok kucoin_error_codes
  else if exchange = "huobi" then .ok huobi_error_codes
  else .error "Exchange not supported"

/-- `ErrorCodes.get_error_code`: dict access
`self.error_codes[error_name]`. -/
def get_error_code (codes : List (String × Int)) (error_name : String) : Option Int :=
  codes.lookup error_name

/-! ## Historical-klines error handling (`main.py`) -/

/-- The argument passed to `HistoricalKlines._error_handler`: either an
exchange error payload (a dict carrying a numeric `"code"`) or a caught
Python exception (anything that is not a dict). -/
inductive FetchError where
  | payload (code : Int)
  | exn (msg : String)
deriving DecidableEq, Repr

/-- What `HistoricalKlines._error_handler` does with an error: sleep the
given number of seconds and call `self.save_klines()` again, or print
the given message and return without retrying. -/
inductive ErrorAction where
  | sleepRetry (delaySeconds : Nat)
  | logOnly (msg : String)
deriving DecidableEq, Repr

/-- Whether the handler's two transient branches match the error: the
payload's code equals the exchange's `TOO_MANY_REQUESTS` code or its
`TIMEOUT` code; a non-dict error matches neither. -/
def is_transient (codes : List (String × Int)) : FetchError → Bool
  | .payload c =>
      get_error_code codes "TOO_MANY_REQUESTS" == some c ||
      get_error_code codes "TIMEOUT" == some c
  | .exn _ => false

/-- The message printed on the no-retry branches of
`HistoricalKlines._error_handler`. -/
def fatal_log_msg (exchange symbol interval : String) : String :=
  "Error getting klines for " ++ symbol ++ " on " ++ exchange ++
    " with interval " ++ interval

/-- `HistoricalKlines._error_handler`: `self.error_codes` was built by
`ErrorCodes(self.exchange)` in `__init__` (whose failure propagates as
`.error`).  A dict error whose `code` equals the `TOO_MANY_REQUESTS` or
`TIMEOUT` code sleeps `DELAY_AFTER_TIMEOUT` seconds and retries
`save_klines`; any other dict error, and any non-dict error, is printed
with symbol/exchange/interval context and the handler returns. -/
def error_handler (exchange symbol interval : String) (error : FetchError) :
    Except String ErrorAction :=
  match set_error_codes exchange with
  | .error e => .error e
  | .ok codes =>
      match error with
      | .payload code =>
          if some code = get_error_code codes "TOO_MANY_REQUESTS" then
            .ok (.sleepRetry DELAY_AFTER_TIMEOUT)
          else if some code = get_error_code codes "TIMEOUT" then
            .ok (.sleepRetry DELAY_AFTER_TIMEOUT)
          else
            .ok (.logOnly (fatal_log_msg exchange symbol interval))
      | .exn _ => .ok (.logOnly (fatal_log_msg exchange symbol interval))

/-! ## Binance symbol selection (`binance_interface.py`, `main.py`) -/

/-- One entry of the raw binance exchange listing, restricted to the
fields the selection code reads. -/
structure BnListing where
  symbol : String
  status : String
deriving DecidableEq, Repr

/-- `BinanceSymbolsManager.filter_offline`: keeps the rows whose
`status` column equals `"TRADING"`. -/
def bn_filter_offline (symbols : List BnListing) : List BnListing :=
  symbols.filter (fun r => r.status == "TRADING")

/-- `BinanceSymbolsManager.convert_to_list`: the `symbol` column as a
list. -/
def bn_convert_to_list (symbols : List BnListing) : List String :=
  symbols.map (fun r => r.symbol)

/-- `main.binance_set_coins_to_track`: converts the listing to a
dataframe (identity on this model) and applies only `filter_offline`;
the `filter_excluded` call and the intersection with it are commented
out in the source, as is the hardcoded override. -/
def binance_set_coins_to_track (bn_symbols : List BnListing) : List String :=
  bn_convert_to_list (bn_filter_offline bn_symbols)

/-- Follows the spec's words, for comparison with the source: the
SymbolSelector returns the intersection of the "currently tradable"
filter and the "not in excludeSet" filter, as symbols. -/
def selector_per_spec (symbols : List BnListing) (excluded : List String) : List String :=
  (symbols.filter (fun r => r.status == "TRADING" && !(excluded.contains r.symbol))).map
    (fun r => r.symbol)

/-! ## Polling collection loop (`main.py`) -/

/-- `ThreadingBase._timeout_cb` at wall-clock time `now`:
`current_duration = now - start_time`, true iff it exceeds `duration`. -/
def timeout_cb (start_time duration now : Nat) : Bool :=
  duration < now - start_time

/-- The wall-clock times at which the `while` loop of
`HBTradingDataCollectionThread.collection_loop` calls
`api.request_trades`, assuming the fetch itself is instantaneous and
each iteration advances time by `time.sleep(self.sleep)`.  The loop
checks `_timeout_cb` at time `now`, and if it is false sleeps and
fetches at `now + sleep`.  `fuel` bounds the number of modelled
iterations; the proved properties hold for every fuel. -/
def poll_fetches : Nat → Nat → Nat → Nat → Nat → List Nat
  | 0, _, _, _, _ => []
  | fuel + 1, now, start_time, duration, sleep =>
      if timeout_cb start_time duration now then []
      else (now + sleep) :: poll_fetches fuel (now + sleep) start_time duration sleep

/-- The full fetch trace of `collection_loop`: one `request_trades`
call up front at `start_time`, then the `while` loop. -/
def collection_loop_fetches (fuel start_time duration sleep : Nat) : List Nat :=
  start_time :: poll_fetches fuel start_time start_time duration sleep

/-! ## Sanitation per the spec's words -/

/-- Whitespace as Python's `str.strip` treats it, restricted to the
characters relevant here. -/
def is_ws (c : Char) : Bool :=
  c == ' ' || c == '\t' || c == '\n' || c == '\r'

/-- Drop leading and trailing whitespace characters. -/
def trim_chars (l : List Char) : List Char :=
  ((l.dropWhile is_ws).reverse.dropWhile is_ws).reverse

/-- Follows the spec's words, for comparison with the source: strip
embedded newlines and field-delimiter characters (commas), and strip
leading/trailing whitespace, leaving interior non-delimiter content
unchanged. -/
def sanitize_per_spec (s : String) : String :=
  ⟨trim_chars (s.data.filter (fun c => c != '\n' && c != ','))⟩

/-! ## Helper lemmas -/

/-- Invariant tying a store's log to its dedup registry: the logged ids
are pairwise distinct and every logged id is registered in
`timestamps`. -/
def StoreInv (s : DataStore) : Prop :=
  (s.log.map row_id).Nodup ∧ ∀ r ∈ s.log, row_id r ∈ s.timestamps

theorem write_preserves_inv (s : DataStore) (data : List Value)
    (h : StoreInv s) : StoreInv (write_data_to_csv s data 0) := by
  obtain ⟨hnd, hreg⟩ := h
  by_cases hmem : (clean_data data).getD 0 (.str "") ∈ s.timestamps
  · simp only [write_data_to_csv]
    rw [if_pos hmem]
    exact ⟨hnd, hreg⟩
  · simp only [write_data_to_csv]
    rw [if_neg hmem]
    constructor
    · show (List.map row_id (s.log ++ [clean_data data])).Nodup
      rw [List.map_append, List.nodup_append]
      refine ⟨hnd, by simp, ?_⟩
      intro x hx hx'
      simp only [List.map_cons, List.map_nil, List.mem_singleton] at hx'
      subst hx'
      obtain ⟨r, hr, hrid⟩ := List.mem_map.mp hx
      have h1 : row_id (clean_data data) ∈ s.timestamps := by
        rw [← hrid]
        exact hreg r hr
      exact hmem (by simpa only [row_id] using h1)
    · intro r hr
      have hr2 : r ∈ s.log ++ [clean_data data] := hr
      rcases List.mem_append.mp hr2 with hr' | hr'
      · have hts := hreg r hr'
        show row_id r ∈ insert_key ((clean_data data).getD 0 (.str "")) s.timestamps
        rw [insert_key, if_neg hmem]
        exact List.mem_append_left _ hts
      · simp only [List.mem_singleton] at hr'
        subst hr'
        show row_id (clean_data data) ∈
          insert_key ((clean_data data).getD 0 (.str "")) s.timestamps
        rw [insert_key, if_neg hmem]
        simp [row_id]

theorem feed_preserves_inv (recs : List (List Value)) :
    ∀ s : DataStore, StoreInv s → StoreInv (feed s recs) := by
  induction recs with
  | nil => intro s h; exact h
  | cons r rs ih =>
      intro s h
      exact ih (write_data_to_csv s r 0) (write_preserves_inv s r h)

theorem empty_store_inv (n : Nat) : StoreInv (empty_store n) := by
  constructor <;> simp [empty_store]

/-! ## Claim theorems -/

/-- C1: the claim says constructing a `DataStore` over an existing csv
file leaves the file's prior contents unchanged.  The code's
`_create_csv`, called unconditionally by `__init__`, opens the file in
mode `"w"`, which truncates a pre-existing log to empty: evaluated on a
file holding one prior row, construction empties it (while it does
create the file when absent, the half of the claim that holds). -/
theorem create_csv_truncates_existing_log :
    create_csv (some "1000,0.5,0.6\n") = some "" ∧
    create_csv (some "1000,0.5,0.6\n") ≠ some "1000,0.5,0.6\n" ∧
    create_csv none = some "" := by
  decide

/-- C2: feeding any sequence of records (each nonempty, with the id at
index 0 as at every call site) to one store appends each id to the
persistent log at most once, in any arrival order; and in the concrete
scenario two candles with openTime 1000 yield exactly one logged row
with that id, the first call storing the row and the second returning
silently without any state change. -/
theorem write_dedup_at_most_once :
    (∀ recs : List (List Value), (∀ r ∈ recs, r ≠ []) →
       ((feed (empty_store 1000) recs).log.map row_id).Nodup)
    ∧ (let candle_a : List Value :=
         [.int 1000, .int 10, .int 12, .int 9, .int 11, .int 5, .int 7]
       let candle_b : List Value :=
         [.int 1000, .int 12, .int 13, .int 11, .int 12, .int 6, .int 8]
       let s1 := write_data_to_csv (empty_store 1000) candle_a 0
       let s2 := write_data_to_csv s1 candle_b 0
       s1.log = [candle_a] ∧ s2 = s1 ∧
       (s2.log.filter (fun r => row_id r == .int 1000)).length = 1) := by
  constructor
  · intro recs _
    exact (feed_preserves_inv recs (empty_store 1000) (empty_store_inv 1000)).1
  · decide

/-- C3: the claim says the recency buffer is a bounded FIFO set of
capacity `id_buffer_size`, so that with capacity 1, after two distinct
ids the first is evicted and is re-accepted as new when re-submitted.
Evaluating the code at that input: after storing ids 1 and 2 the
registry holds both ids (nothing was evicted, exceeding the capacity
of 1), and re-submitting id 1 is rejected as a duplicate with no state
change — `write_data_to_csv` never consults `id_buffer_size`. -/
theorem buffer_capacity_never_enforced :
    (write_data_to_csv (write_data_to_csv (empty_store 1) [.int 1] 0) [.int 2] 0).id_buffer_size
      = 1 ∧
    (write_data_to_csv (write_data_to_csv (empty_store 1) [.int 1] 0) [.int 2] 0).timestamps
      = [.int 1, .int 2] ∧
    1 < (write_data_to_csv (write_data_to_csv (empty_store 1) [.int 1] 0)
          [.int 2] 0).timestamps.length ∧
    write_data_to_csv
        (write_data_to_csv (write_data_to_csv (empty_store 1) [.int 1] 0) [.int 2] 0) [.int 1] 0
      = write_data_to_csv (write_data_to_csv (empty_store 1) [.int 1] 0) [.int 2] 0 := by
  decide

/-- Witness for `write_dedup_at_most_once`: a concrete sequence with a
repeated id, every record nonempty. -/
theorem write_dedup_at_most_once_witness :
    ((feed (empty_store 1000)
        [[.int 7, .int 1], [.int 7, .int 2], [.int 8, .int 3]]).log.map row_id).Nodup :=
  write_dedup_at_most_once.1 [[.int 7, .int 1], [.int 7, .int 2], [.int 8, .int 3]] (by decide)

/-- C9: `write_data_to_csv` tests duplicate membership on the cleaned
`data[id_index]` (the call is a no-op exactly when that entry is
registered), but on the non-duplicate path it always registers the
cleaned `data[0]`.  With `id_index = 0` the checked and registered id
coincide (the checked id is registered afterwards); concretely with
`id_index = 1` they differ: writing `["a", "b"]` registers `"a"` while
`"b"` — the id that was checked — stays unregistered, so a second row
`["c", "b"]` with the same id `"b"` at index 1 is appended again. -/
theorem checked_vs_registered_id :
    (∀ (store : DataStore) (data : List Value) (i : Nat), i < data.length →
       (write_data_to_csv store data i = store ↔
         (clean_data data).getD i (.str "") ∈ store.timestamps))
    ∧ (∀ (store : DataStore) (data : List Value) (i : Nat), i < data.length →
         (clean_data data).getD i (.str "") ∉ store.timestamps →
         (write_data_to_csv store data i).timestamps
           = insert_key ((clean_data data).getD 0 (.str "")) store.timestamps)
    ∧ (∀ (store : DataStore) (data : List Value),
         (clean_data data).getD 0 (.str "") ∉ store.timestamps →
         (clean_data data).getD 0 (.str "") ∈ (write_data_to_csv store data 0).timestamps)
    ∧ (let s1 := write_data_to_csv (empty_store 1000) [.str "a", .str "b"] 1
       let s2 := write_data_to_csv s1 [.str "c", .str "b"] 1
       s1.timestamps = [.str "a"] ∧ .str "b" ∉ s1.timestamps ∧
       (s2.log.filter (fun r => r.getD 1 (.str "") == .str "b")).length = 2) := by
  refine ⟨?_, ?_, ?_, by decide⟩
  · intro store data i _
    by_cases hmem : (clean_data data).getD i (.str "") ∈ store.timestamps
    · simp only [write_data_to_csv]
      rw [if_pos hmem]
      exact ⟨fun _ => hmem, fun _ => rfl⟩
    · simp only [write_data_to_csv]
      rw [if_neg hmem]
      simp only [hmem, iff_false]
      intro heq
      have hlog := congrArg DataStore.log heq
      simp only at hlog
      have := congrArg List.length hlog
      simp at this
  · intro store data i _ hmem
    simp only [write_data_to_csv]
    rw [if_neg hmem]
  · intro store data hmem
    simp only [write_data_to_csv]
    rw [if_neg hmem]
    show (clean_data data).getD 0 (.str "") ∈
      insert_key ((clean_data data).getD 0 (.str "")) store.timestamps
    rw [insert_key, if_neg hmem]
    simp

/-- Witness for `checked_vs_registered_id` at concrete inputs. -/
theorem checked_vs_registered_id_witness :
    (write_data_to_csv (empty_store 1000) [.int 5] 0 = empty_store 1000 ↔
       (clean_data [.int 5]).getD 0 (.str "") ∈ (empty_store 1000).timestamps) ∧
    (write_data_to_csv (empty_store 1000) [.str "a", .str "b"] 1).timestamps
      = insert_key (.str "a") [] ∧
    .int 5 ∈ (write_data_to_csv (empty_store 1000) [.int 5] 0).timestamps :=
  ⟨checked_vs_registered_id.1 (empty_store 1000) [.int 5] 0 (by decide),
   checked_vs_registered_id.2.1 (empty_store 1000) [.str "a", .str "b"] 1 (by decide) (by decide),
   checked_vs_registered_id.2.2.1 (empty_store 1000) [.int 5] (by decide)⟩

/-- C4: for every exchange whose `KlineIntervals` table constructs
(exactly binance, kucoin, huobi), every native token round-trips
through its canonical seconds value in both directions — the per-table
seconds values are pairwise distinct, so the mapping is a bijection per
exchange — and a seconds value carried by no token of that exchange
makes `_get_exchange_interval` raise "Interval not supported". -/
theorem interval_roundtrip :
    ∀ (exchange : String) (tbl : List (String × Nat)),
      set_intervals exchange = .ok tbl →
      (∀ p ∈ tbl, get_interval_seconds tbl p.1 = some p.2 ∧
         get_exchange_interval exchange p.2 = .ok p.1)
      ∧ ∀ s : Nat, (∀ p ∈ tbl, p.2 ≠ s) →
          get_exchange_interval exchange s = .error "Interval not supported" := by
  intro exchange tbl h
  unfold set_intervals at h
  split_ifs at h with h1 h2 h3 <;> cases h <;> subst ‹exchange = _› <;>
    refine ⟨by decide, fun s hs => ?_⟩
  · have hf : (binance_intervals.find? (fun p => p.2 == s)) = none :=
      List.find?_eq_none.mpr (fun p hp => by simpa using hs p hp)
    simp [get_exchange_interval, set_intervals, hf]
  · have hf : (kucoin_intervals.find? (fun p => p.2 == s)) = none :=
      List.find?_eq_none.mpr (fun p hp => by simpa using hs p hp)
    simp [get_exchange_interval, set_intervals, hf]
  · have hf : (huobi_intervals.find? (fun p => p.2 == s)) = none :=
      List.find?_eq_none.mpr (fun p hp => by simpa using hs p hp)
    simp [get_exchange_interval, set_intervals, hf]

/-- Witness for `interval_roundtrip`: the binance 1-hour pair
round-trips, and 61 seconds is unsupported on kucoin. -/
theorem interval_roundtrip_witness :
    get_interval_seconds binance_intervals "1h" = some 3600 ∧
    get_exchange_interval "binance" 3600 = .ok "1h" ∧
    get_exchange_interval "kucoin" 61 = .error "Interval not supported" := by
  have hb := interval_roundtrip "binance" binance_intervals (by decide)
  have hk := interval_roundtrip "kucoin" kucoin_intervals (by decide)
  exact ⟨(hb.1 ("1h", 3600) (by decide)).1, (hb.1 ("1h", 3600) (by decide)).2,
    hk.2 61 (by decide)⟩

/-- C10: for every exchange string other than binance, kucoin and
huobi, both `KlineIntervals.__init__` and `ErrorCodes.__init__` raise
"Exchange not supported"; for exactly those three, construction
succeeds and yields a non-empty lookup table (a pure function of the
exchange string — neither class has a mutator, so the table is fixed
after construction). -/
theorem exchange_gate :
    (∀ exchange : String,
       exchange ∉ (["binance", "kucoin", "huobi"] : List String) →
       set_intervals exchange = .error "Exchange not supported" ∧
       set_error_codes exchange = .error "Exchange not supported")
    ∧ ∀ exchange ∈ (["binance", "kucoin", "huobi"] : List String),
        ∃ tbl codes, set_intervals exchange = .ok tbl ∧ tbl ≠ [] ∧
          set_error_codes exchange = .ok codes ∧ codes ≠ [] := by
  constructor
  · intro exchange he
    have h1 : exchange ≠ "binance" := fun h => he (by simp [h])
    have h2 : exchange ≠ "kucoin" := fun h => he (by simp [h])
    have h3 : exchange ≠ "huobi" := fun h => he (by simp [h])
    exact ⟨by simp [set_intervals, h1, h2, h3], by simp [set_error_codes, h1, h2, h3]⟩
  · intro exchange he
    fin_cases he
    · exact ⟨binance_intervals, binance_error_codes, by decide, by decide, by decide, by decide⟩
    · exact ⟨kucoin_intervals, kucoin_error_codes, by decide, by decide, by decide, by decide⟩
    · exact ⟨huobi_intervals, huobi_error_codes, by decide, by decide, by decide, by decide⟩

/-- Witness for `exchange_gate`: coinbase is rejected, huobi succeeds. -/
theorem exchange_gate_witness :
    (set_intervals "coinbase" = .error "Exchange not supported" ∧
     set_error_codes "coinbase" = .error "Exchange not supported") ∧
    ∃ tbl codes, set_intervals "huobi" = .ok tbl ∧ tbl ≠ [] ∧
      set_error_codes "huobi" = .ok codes ∧ codes ≠ [] :=
  ⟨exchange_gate.1 "coinbase" (by decide), exchange_gate.2 "huobi" (by decide)⟩

set_option maxRecDepth 4000 in
/-- C5 counterexample: the claim says the selector intersects the
tradable filter with the exclude filter, returning `[]` on the scenario
listing.  `binance_set_coins_to_track` applies only the tradable
filter (the exclusion filter is commented out in the source), so the
excluded-but-trading BTCUSDT is returned; the spec-worded selector
does return `[]` on the same input. -/
theorem selector_scenario_counterexample :
    binance_set_coins_to_track [⟨"BTCUSDT", "TRADING"⟩, ⟨"ETHUSDT", "BREAK"⟩] = ["BTCUSDT"] ∧
    binance_set_coins_to_track [⟨"BTCUSDT", "TRADING"⟩, ⟨"ETHUSDT", "BREAK"⟩] ≠ [] ∧
    selector_per_spec [⟨"BTCUSDT", "TRADING"⟩, ⟨"ETHUSDT", "BREAK"⟩] ["BTCUSDT"] = [] := by
  decide

/-- C5 amended: binance symbol selection applies only the "currently
tradable" filter — a symbol is selected iff some listing row carries it
with status TRADING, the exclude set playing no role — and on the
scenario listing the selector returns `["BTCUSDT"]`, not `[]`. -/
theorem selector_online_only :
    (∀ (symbols : List BnListing) (sym : String),
       sym ∈ binance_set_coins_to_track symbols ↔
         ∃ r ∈ symbols, r.symbol = sym ∧ r.status = "TRADING")
    ∧ binance_set_coins_to_track [⟨"BTCUSDT", "TRADING"⟩, ⟨"ETHUSDT", "BREAK"⟩] = ["BTCUSDT"] := by
  refine ⟨fun symbols sym => ?_, by decide⟩
  simp only [binance_set_coins_to_track, bn_convert_to_list, bn_filter_offline,
    List.mem_map, List.mem_filter, beq_iff_eq]
  constructor
  · rintro ⟨r, ⟨hr, hst⟩, hsym⟩
    exact ⟨r, hr, hsym, hst⟩
  · rintro ⟨r, hr, hsym, hst⟩
    exact ⟨r, ⟨hr, hst⟩, hsym⟩

theorem is_transient_payload_iff (codes : List (String × Int)) (c : Int) :
    is_transient codes (.payload c) = true ↔
      some c = get_error_code codes "TOO_MANY_REQUESTS" ∨
      some c = get_error_code codes "TIMEOUT" := by
  unfold is_transient
  rw [Bool.or_eq_true, beq_iff_eq, beq_iff_eq]
  constructor
  · rintro (h | h)
    · exact Or.inl h.symm
    · exact Or.inr h.symm
  · rintro (h | h)
    · exact Or.inl h.symm
    · exact Or.inr h.symm

/-- C6: for every exchange whose error-code table constructs, the error
classification alone decides `_error_handler`'s action: an error dict
whose code matches the exchange's rate-limit or timeout code yields a
sleep of the fixed `DELAY_AFTER_TIMEOUT` backoff followed by a retry of
`save_klines`; any other error — an unrecognized dict code or a caught
exception — is logged with symbol/exchange/interval context and the
handler returns without retrying; and a retry action is only ever
produced for a transient-classified error. -/
theorem error_classification_decides :
    ∀ (exchange : String) (codes : List (String × Int)),
      set_error_codes exchange = .ok codes →
      ∀ (symbol interval : String) (err : FetchError),
        (is_transient codes err = true →
          error_handler exchange symbol interval err = .ok (.sleepRetry DELAY_AFTER_TIMEOUT))
        ∧ (is_transient codes err = false →
          error_handler exchange symbol interval err =
            .ok (.logOnly (fatal_log_msg exchange symbol interval)))
        ∧ ∀ d : Nat, error_handler exchange symbol interval err = .ok (.sleepRetry d) →
            is_transient codes err = true := by
  intro exchange codes h symbol interval err
  cases err with
  | payload c =>
      have hred : error_handler exchange symbol interval (.payload c) =
          (if some c = get_error_code codes "TOO_MANY_REQUESTS" then
            .ok (.sleepRetry DELAY_AFTER_TIMEOUT)
          else if some c = get_error_code codes "TIMEOUT" then
            .ok (.sleepRetry DELAY_AFTER_TIMEOUT)
          else .ok (.logOnly (fatal_log_msg exchange symbol interval))) := by
        unfold error_handler
        rw [h]
      by_cases h1 : some c = get_error_code codes "TOO_MANY_REQUESTS"
      · have ht : is_transient codes (.payload c) = true :=
          (is_transient_payload_iff codes c).mpr (Or.inl h1)
        rw [hred, if_pos h1]
        exact ⟨fun _ => rfl, fun hf => absurd ht (by simp [hf]), fun d _ => ht⟩
      · by_cases h2 : some c = get_error_code codes "TIMEOUT"
        · have ht : is_transient codes (.payload c) = true :=
            (is_transient_payload_iff codes c).mpr (Or.inr h2)
          rw [hred, if_neg h1, if_pos h2]
          exact ⟨fun _ => rfl, fun hf => absurd ht (by simp [hf]), fun d _ => ht⟩
        · have ht : is_transient codes (.payload c) = false := by
            rw [Bool.eq_false_iff]
            intro hc
            rcases (is_transient_payload_iff codes c).mp hc with h' | h'
            · exact h1 h'
            · exact h2 h'
          rw [hred, if_neg h1, if_neg h2]
          refine ⟨fun htr => absurd htr (by simp [ht]), fun _ => rfl, fun d hd => ?_⟩
          simp at hd
  | exn m =>
      have hred : error_handler exchange symbol interval (.exn m) =
          .ok (.logOnly (fatal_log_msg exchange symbol interval)) := by
        unfold error_handler
        rw [h]
      refine ⟨fun htr => ?_, fun _ => hred, fun d hd => ?_⟩
      · simp [is_transient] at htr
      · rw [hred] at hd
        simp at hd

/-- Witness for `error_classification_decides`: binance's rate-limit
code -1003 retries after the fixed backoff, a caught exception is
logged without retry. -/
theorem error_classification_decides_witness :
    error_handler "binance" "BTCUSDT" "1h" (.payload (-1003)) =
      .ok (.sleepRetry DELAY_AFTER_TIMEOUT) ∧
    error_handler "binance" "BTCUSDT" "1h" (.exn "boom") =
      .ok (.logOnly (fatal_log_msg "binance" "BTCUSDT" "1h")) := by
  have h := error_classification_decides "binance" binance_error_codes (by decide) "BTCUSDT" "1h"
  exact ⟨(h (.payload (-1003))).1 (by decide), (h (.exn "boom")).2.1 (by decide)⟩

/-- C7 counterexample: the claim says sanitation strips newlines,
commas and leading/trailing whitespace while leaving the interior
non-delimiter content of string fields unchanged.  On `"a b"` the code
removes the interior space (Python `.replace(" ", "")` removes every
space), whereas the spec-worded sanitizer leaves `"a b"` unchanged. -/
theorem clean_interior_space_counterexample :
    clean_value (.str "a b") = .str "ab" ∧
    sanitize_per_spec "a b" = "a b" ∧
    (Value.str "ab") ≠ (Value.str "a b") := by
  decide

/-- C7 amended: before a record is written, every string field has all
newline, space (interior included) and comma characters removed —
equivalently one filter dropping exactly those three characters — while
non-string fields are unchanged; other whitespace such as tabs is not
stripped. -/
theorem clean_removes_spaces_commas_newlines :
    (∀ s : String, clean_value (.str s)
        = .str ⟨s.data.filter (fun c => c != '\n' && c != ' ' && c != ',')⟩)
    ∧ (∀ n : Int, clean_value (.int n) = .int n)
    ∧ clean_value (.str "\tx, y\n") = .str "\txy" := by
  refine ⟨fun s => ?_, fun n => rfl, by decide⟩
  simp only [clean_value, removeChar, Value.str.injEq]
  rw [List.filter_filter, List.filter_filter]
  refine congrArg String.mk (List.filter_congr ?_)
  intro a _
  cases h1 : a == '\n' <;> cases h2 : a == ' ' <;> cases h3 : a == ',' <;>
    simp [bne, h1, h2, h3]

theorem poll_fetches_of_timeout (fuel now start_time duration sleep : Nat)
    (h : timeout_cb start_time duration now = true) :
    poll_fetches fuel now start_time duration sleep = [] := by
  cases fuel <;> simp [poll_fetches, h]

theorem poll_fetches_mem_le (start_time duration sleep : Nat) (fuel : Nat) :
    ∀ now, ∀ t ∈ poll_fetches fuel now start_time duration sleep,
      t ≤ start_time + duration + sleep := by
  induction fuel with
  | zero =>
      intro now t ht
      simp [poll_fetches] at ht
  | succ n ih =>
      intro now t ht
      by_cases h : timeout_cb start_time duration now = true
      · rw [poll_fetches_of_timeout] at ht
        · simp at ht
        · exact h
      · have hf : timeout_cb start_time duration now = false := by
          simpa using h
        have hle : now - start_time ≤ duration := by
          simpa [timeout_cb, Nat.not_lt] using hf
        simp only [poll_fetches, hf, Bool.false_eq_true, if_false, List.mem_cons] at ht
        rcases ht with ht | ht
        · subst ht
          omega
        · exact ih (now + sleep) t ht

theorem poll_fetches_length_bound (start_time duration sleep : Nat) (fuel : Nat) :
    ∀ now, (poll_fetches fuel now start_time duration sleep).length * sleep + now
        ≤ start_time + duration + sleep ∨
      poll_fetches fuel now start_time duration sleep = [] := by
  induction fuel with
  | zero =>
      intro now
      right
      rfl
  | succ n ih =>
      intro now
      by_cases h : timeout_cb start_time duration now = true
      · right
        exact poll_fetches_of_timeout _ _ _ _ _ h
      · left
        have hf : timeout_cb start_time duration now = false := by
          simpa using h
        have hle : now - start_time ≤ duration := by
          simpa [timeout_cb, Nat.not_lt] using hf
        simp only [poll_fetches, hf, Bool.false_eq_true, if_false, List.length_cons]
        rcases ih (now + sleep) with h' | h'
        · rw [Nat.add_mul, Nat.one_mul]
          omega
        · rw [h']
          simp only [List.length_nil]
          omega

/-- C8: the polling collection loop re-checks `_timeout_cb` before each
fetch: from any instant at which the deadline predicate holds the loop
performs no further fetch; every fetch in the whole trace happens no
later than one sleep interval past the deadline `start_time +
duration`; the loop runs only boundedly many iterations (at most
`duration / sleep + 1` further fetches after the initial one); and when
the predicate does not yet hold the loop does not stop — it sleeps and
fetches once more. -/
theorem polling_deadline_bound :
    ∀ (fuel start_time duration sleep : Nat),
      (∀ now, timeout_cb start_time duration now = true →
         poll_fetches fuel now start_time duration sleep = [])
      ∧ (∀ t ∈ collection_loop_fetches fuel start_time duration sleep,
           t ≤ start_time + duration + sleep)
      ∧ (0 < sleep →
           (collection_loop_fetches fuel start_time duration sleep).length ≤ duration / sleep + 2)
      ∧ (∀ now, timeout_cb start_time duration now = false → 0 < fuel →
           poll_fetches fuel now start_time duration sleep ≠ []) := by
  intro fuel start_time duration sleep
  refine ⟨fun now h => poll_fetches_of_timeout _ _ _ _ _ h, ?_, ?_, ?_⟩
  · intro t ht
    rcases List.mem_cons.mp ht with ht | ht
    · subst ht
      omega
    · exact poll_fetches_mem_le start_time duration sleep fuel start_time t ht
  · intro hsl
    have hlen : (poll_fetches fuel start_time start_time duration sleep).length * sleep
        ≤ duration + sleep := by
      rcases poll_fetches_length_bound start_time duration sleep fuel start_time with h' | h'
      · omega
      · rw [h']
        simp
    have hdiv : (poll_fetches fuel start_time start_time duration sleep).length
        ≤ (duration + sleep) / sleep := (Nat.le_div_iff_mul_le hsl).mpr hlen
    have hdone : (duration + sleep) / sleep = duration / sleep + 1 := Nat.add_div_right _ hsl
    show (poll_fetches fuel start_time start_time duration sleep).length + 1
        ≤ duration / sleep + 2
    omega
  · intro now hfalse hfuel
    cases fuel with
    | zero => exact absurd hfuel (by simp)
    | succ n =>
        simp [poll_fetches, hfalse]

/-- Witness for `polling_deadline_bound` with `start_time = 0`,
`duration = 25`, `sleep = 10`: the trace is `[0, 10, 20, 30]` — the
last fetch at 30 is within one sleep interval of the deadline 25, the
loop has stopped by time 36, and at time 20 (deadline not reached) it
kept going. -/
theorem polling_deadline_bound_witness :
    poll_fetches 5 36 0 25 10 = [] ∧
    (10 : Nat) ≤ 0 + 25 + 10 ∧
    (collection_loop_fetches 5 0 25 10).length ≤ 25 / 10 + 2 ∧
    poll_fetches 5 20 0 25 10 ≠ [] := by
  have h := polling_deadline_bound 5 0 25 10
  exact ⟨h.1 36 (by decide), h.2.1 10 (by decide), h.2.2.1 (by decide),
    h.2.2.2 20 (by decide) (by decide)⟩

end Altcoin
